import Mathlib

/-!
Verification of the statusPageLogs event pipeline.

This file gives a shallow embedding of the repository's core modules —
`models.py` (the unified event record), `event_log.py` (the JSONL
append-only log with size-triggered trim), `pipeline/detector.py` (the
per-source change detector), `providers/atlassian.py` (normalization and
webhook parsing) and `webhook_server.py` (payload-shape provider
detection) — and proves or refutes the specification's claims about them.

Modelling conventions:
* Machine timestamps (`datetime` instants, always resolved to UTC by the
  code before comparison) are modelled as `Int` seconds since the epoch.
* The JSONL file is a list of `StoreLine`s.  A physical line is either
  whitespace-only (`blank`), non-blank text on which `json.loads` fails
  or yields a falsy value (`junk`), a line that parses to a truthy
  non-dict JSON value (`value`), or a line that parses to a (truthy)
  JSON record (`record`).  The byte size of the file
  (`os.path.getsize`) is an external quantity and is passed in as a
  function `sizeOf` from the file's contents to its size.
* `json.dumps`/`json.loads` round-tripping of a serialized event is the
  Python standard library's guarantee and is reflected by `_parse_line`
  returning the record a `record` line carries.
* `datetime.fromisoformat` is passed in as an explicit parse function
  where the code calls it.
* CPython operations the code leaves unguarded — `d.get` on a non-dict,
  `.replace` on a truthy non-string `"timestamp"` entry (only
  `ValueError`/`TypeError` are caught around `fromisoformat`), the bare
  `fromisoformat` in `_normalize_to_events` — are modelled in an
  `Except PyErr` monad, so a crash of the trim or of normalization is an
  explicit outcome, not a silent skip.
-/

namespace StatusPageLogs

/-- The unified event record of `models.py` (`UnifiedEvent`).  `timestamp`
is a timezone-aware instant, modelled as seconds since the epoch (UTC). -/
structure UnifiedEvent where
  source_id : String
  product_name : String
  status : String
  message : String
  timestamp : Int
  event_id : String
deriving DecidableEq, Repr

/-- Python exceptions that the trim, normalization and webhook-parsing
paths can raise and do not catch. -/
inductive PyErr where
  | attributeError
  | typeError
  | valueError
  | validationError
deriving DecidableEq, Repr

/-- The `"timestamp"` entry of a stored JSON record, as seen by
`event_log._parse_ts`: `absent` when the entry is missing or falsy
(`if not raw: return None`); `iso t` for a truthy string that
`datetime.fromisoformat` parses to the UTC instant `t` (naive instants
are interpreted as UTC by the trim, which the `Int` model absorbs);
`badstr` for a truthy string `fromisoformat` rejects (the `ValueError`
is caught, yielding `None`); `nonstr` for a truthy non-string value
(int, bool, list, dict), on which `raw.replace("Z", "+00:00")` raises
an `AttributeError` that nothing catches. -/
inductive TsField where
  | absent
  | iso (t : Int)
  | badstr (raw : String)
  | nonstr (tag : String)
deriving DecidableEq, Repr

/-- A parsed JSON record of the log store, i.e. the truthy `dict` that
`json.loads` returns for a stored event line, with its `"timestamp"`
entry classified as a `TsField`. -/
structure LogRecord where
  source_id : String
  product_name : String
  status : String
  message : String
  timestamp : TsField
  event_id : String
deriving DecidableEq, Repr

/-- One physical line of the JSONL store file: whitespace-only (`blank`),
non-blank text that `json.loads` rejects or that parses to a falsy value
such as `{}` (`junk`, carrying the raw text), non-blank text that parses
to a truthy non-dict JSON value such as `7` or `[1]` (`value`, carrying
the raw text), or a line that parses to a truthy JSON record
(`record`). -/
inductive StoreLine where
  | blank
  | junk (raw : String)
  | value (raw : String)
  | record (r : LogRecord)
deriving DecidableEq, Repr

/-- The truthy result of `_parse_line` on a line: either a non-dict JSON
value or a record. -/
inductive ParsedLine where
  | value (raw : String)
  | record (r : LogRecord)
deriving DecidableEq, Repr

/-- `model_dump(mode="json")` of a `UnifiedEvent`: the record that the
serialized line parses back to.  The dumped timestamp string always
re-parses to the same instant. -/
def dumpEvent (e : UnifiedEvent) : LogRecord :=
  { source_id := e.source_id
    product_name := e.product_name
    status := e.status
    message := e.message
    timestamp := TsField.iso e.timestamp
    event_id := e.event_id }

/-- `event_log._event_to_line`: serialize an event as one JSONL line. -/
def _event_to_line (e : UnifiedEvent) : StoreLine :=
  StoreLine.record (dumpEvent e)

/-- `event_log._parse_line`: strip the line; an empty (blank) line gives
`None`, a line on which `json.loads` fails gives `None`, otherwise the
parsed JSON value.  The callers' `if not d` falsy test on the parsed
value is folded into the `junk` constructor, so the `some` results are
the truthy parses: non-dict values and records. -/
def _parse_line : StoreLine → Option ParsedLine
  | StoreLine.blank => none
  | StoreLine.junk _ => none
  | StoreLine.value raw => some (ParsedLine.value raw)
  | StoreLine.record r => some (ParsedLine.record r)

/-- `event_log._parse_ts` applied to a truthy parsed line.  On a
non-dict value, `d.get("timestamp")` raises `AttributeError`.  On a
record, the `"timestamp"` entry is read: absent/falsy gives `None`; a
truthy string is parsed, a `ValueError` being caught into `None`; a
truthy non-string raises `AttributeError` at `raw.replace` (only
`ValueError` and `TypeError` are caught). -/
def _parse_ts : ParsedLine → Except PyErr (Option Int)
  | ParsedLine.value _ => Except.error PyErr.attributeError
  | ParsedLine.record r =>
    match r.timestamp with
    | TsField.absent => Except.ok none
    | TsField.iso t => Except.ok (some t)
    | TsField.badstr _ => Except.ok none
    | TsField.nonstr _ => Except.error PyErr.attributeError

/-- `line.strip()` non-emptiness: every line except a blank one. -/
def nonblank : StoreLine → Bool
  | StoreLine.blank => false
  | _ => true

/-- The Python slice `xs[-n:]`: for `n = 0` this is `xs[0:]`, the whole
list; for `n > 0` the start index `len - n` is clamped at `0`. -/
def pySliceLast (n : Nat) (xs : List α) : List α :=
  if n = 0 then xs else xs.drop (xs.length - n)

/-- `event_log.MAX_FILE_BYTES` (100 KiB). -/
def MAX_FILE_BYTES : Nat := 100 * 1024

/-- `event_log.KEEP_LAST_N_WHEN_EMPTY`. -/
def KEEP_LAST_N_WHEN_EMPTY : Nat := 100

/-- Seconds in the `timedelta(hours=24)` trim window. -/
def DAY_SECONDS : Int := 24 * 60 * 60

/-- The trim loop's per-line keep test on lines that do not crash it
(`event_log.append_events`, lines 65–73): parse the line; skip it if
parsing fails (or yields a falsy value); parse the timestamp; keep the
line iff the timestamp parses to an instant `>= cutoff`.  Lines on
which the real loop raises (`_parse_ts` erroring) test `false` here;
`lineSafe` singles them out. -/
def keepLine (cutoff : Int) (l : StoreLine) : Bool :=
  match _parse_line l with
  | none => false
  | some d =>
    match _parse_ts d with
    | Except.ok (some ts) => cutoff ≤ ts
    | _ => false

/-- Whether the trim loop processes the line without raising: it is
skipped by `_parse_line`, or its `_parse_ts` call returns (possibly
`None`) instead of raising `AttributeError`. -/
def lineSafe (l : StoreLine) : Bool :=
  match _parse_line l with
  | none => true
  | some d =>
    match _parse_ts d with
    | Except.ok _ => true
    | Except.error _ => false

/-- The trim's read-and-filter loop (`event_log.append_events`, lines
64–73): for each line in file order, skip it when `_parse_line` yields
nothing truthy, otherwise call `_parse_ts` — whose `AttributeError` on
non-dict values and truthy non-string timestamps propagates — and keep
the line when the timestamp is at or after `cutoff`. -/
def trimFilter (cutoff : Int) : List StoreLine → Except PyErr (List StoreLine)
  | [] => Except.ok []
  | line :: rest =>
    match _parse_line line with
    | none => trimFilter cutoff rest
    | some d =>
      match _parse_ts d with
      | Except.error e => Except.error e
      | Except.ok ts =>
        let keep := match ts with
          | some t => decide (cutoff ≤ t)
          | none => false
        match trimFilter cutoff rest with
        | Except.error e => Except.error e
        | Except.ok tail => Except.ok (if keep then line :: tail else tail)

/-- The observable outcome of one `append_events` call: the file's
contents afterwards (`none` when the file still does not exist), and the
uncaught Python exception if the call raised. -/
structure AppendResult where
  store : Option (List StoreLine)
  err : Option PyErr
deriving DecidableEq, Repr

/-- `event_log.append_events`.  The store is `none` when the file is
absent.  `sizeOf` models `os.path.getsize` on the freshly appended file.
On an empty batch: no-op.  Otherwise append one serialized line per
event; if the resulting size exceeds `MAX_FILE_BYTES`, rewrite the file
keeping the lines whose record timestamp is within the last 24 hours of
`now`, falling back to the last `KEEP_LAST_N_WHEN_EMPTY` non-blank lines
when no line qualifies.  If the trim loop raises, the exception
propagates and the file is left in its appended, untrimmed state. -/
def append_events (sizeOf : List StoreLine → Nat) (now : Int)
    (store : Option (List StoreLine)) (events : List UnifiedEvent) :
    AppendResult :=
  if events.isEmpty then { store := store, err := none }
  else
    let appended := store.getD [] ++ events.map _event_to_line
    if sizeOf appended ≤ MAX_FILE_BYTES then
      { store := some appended, err := none }
    else
      let cutoff := now - DAY_SECONDS
      match trimFilter cutoff appended with
      | Except.error e => { store := some appended, err := some e }
      | Except.ok kept =>
        let kept :=
          if kept.isEmpty then
            pySliceLast KEEP_LAST_N_WHEN_EMPTY (appended.filter nonblank)
          else kept
        { store := some kept, err := none }

/-- `event_log.read_last_events`: on an absent file return `[]`;
otherwise collect the non-blank lines, take the Python slice
`lines[-limit:]`, reverse it, and keep the truthy parses (`if d:
out.append(d)` — so non-dict values are returned too, not skipped). -/
def read_last_events (store : Option (List StoreLine)) (limit : Nat) :
    List ParsedLine :=
  match store with
  | none => []
  | some file =>
    let lines := file.filter nonblank
    (pySliceLast limit lines).reverse.filterMap _parse_line

/-- The deduplication key of an event: `pipeline/detector.py` scopes
seen `event_id`s per `source_id`. -/
def key (e : UnifiedEvent) : String × String :=
  (e.source_id, e.event_id)

/-- `ChangeDetector.filter_new` (`pipeline/detector.py`).  The detector's
state — a `dict` from `source_id` to the set of seen `event_id`s — is
modelled as the list of seen `(source_id, event_id)` pairs.  For each
event in input order: drop it if its key was already seen, otherwise
mark it seen and keep it.  Returns the kept events and the final state. -/
def filter_new (seen : List (String × String)) :
    List UnifiedEvent → List UnifiedEvent × List (String × String)
  | [] => ([], seen)
  | e :: rest =>
    if key e ∈ seen then filter_new seen rest
    else
      let out := filter_new (key e :: seen) rest
      (e :: out.1, out.2)

/-! ## Atlassian adapter: summary model and normalization
(`providers/atlassian.py`).  The pydantic summary models become plain
structures; optional pydantic fields with defaults become `Option`
fields. -/

/-- `atlassian.IncidentUpdate`. -/
structure IncidentUpdate where
  id : String
  body : String
  status : String
  created_at : String
  updated_at : Option String := none
deriving DecidableEq, Repr

/-- `atlassian.Incident`. -/
structure Incident where
  id : String
  name : String
  impact : String
  status : String
  incident_updates : List IncidentUpdate := []
  created_at : Option String := none
  updated_at : Option String := none
deriving DecidableEq, Repr

/-- `atlassian.PageInfo`. -/
structure PageInfo where
  id : String
  name : String
  url : String
  updated_at : Option String := none
deriving DecidableEq, Repr

/-- `atlassian.Component`. -/
structure Component where
  id : String
  name : String
  status : String
deriving DecidableEq, Repr

/-- `atlassian.StatusPageSummary`: parsed `/api/v2/summary.json`. -/
structure StatusPageSummary where
  page : PageInfo
  components : List Component := []
  incidents : List Incident := []
deriving DecidableEq, Repr

/-- The inner update loop of `AtlassianAdapter._normalize_to_events`:
`datetime.fromisoformat` is called unguarded on each update's
`created_at` (after the `"Z"` → `"+00:00"` substitution), so an
unparseable value raises `ValueError` (`fromiso` returning `none`)
instead of emitting an event. -/
def normUpdates (fromiso : String → Option Int) (source_id : String)
    (incident : Incident) :
    List IncidentUpdate → Except PyErr (List UnifiedEvent)
  | [] => Except.ok []
  | update :: rest =>
    match fromiso (update.created_at.replace "Z" "+00:00") with
    | none => Except.error PyErr.valueError
    | some timestamp =>
      match normUpdates fromiso source_id incident rest with
      | Except.error e => Except.error e
      | Except.ok tail =>
        Except.ok
          ({ source_id := source_id
             product_name := incident.name
             status := update.status
             message := update.body
             timestamp := timestamp
             event_id := incident.id ++ "_" ++ update.id } :: tail)

/-- The outer incident loop of `_normalize_to_events`. -/
def normIncidents (fromiso : String → Option Int) (source_id : String) :
    List Incident → Except PyErr (List UnifiedEvent)
  | [] => Except.ok []
  | incident :: rest =>
    match normUpdates fromiso source_id incident incident.incident_updates with
    | Except.error e => Except.error e
    | Except.ok es =>
      match normIncidents fromiso source_id rest with
      | Except.error e => Except.error e
      | Except.ok tail => Except.ok (es ++ tail)

/-- `AtlassianAdapter._normalize_to_events`: one `UnifiedEvent` per
update of each incident, in the summary's incident/update order;
raises `ValueError` on the first update whose `created_at` does not
parse. -/
def _normalize_to_events (fromiso : String → Option Int)
    (summary : StatusPageSummary) (source_id : String) :
    Except PyErr (List UnifiedEvent) :=
  normIncidents fromiso source_id summary.incidents

/-- The event list the specification's normalization contract
describes: one event per incident update, in summary order, fields
drawn from the incident and update (the `getD 0` default is never
reached when every `created_at` parses).  Stated from the spec's words,
to be compared with `_normalize_to_events`. -/
def normalizedEvents (fromiso : String → Option Int)
    (summary : StatusPageSummary) (source_id : String) :
    List UnifiedEvent :=
  summary.incidents.flatMap fun incident =>
    incident.incident_updates.map fun update =>
      { source_id := source_id
        product_name := incident.name
        status := update.status
        message := update.body
        timestamp := (fromiso (update.created_at.replace "Z" "+00:00")).getD 0
        event_id := incident.id ++ "_" ++ update.id }

/-! ## JSON values and Python dynamic semantics

`parse_webhook` and `_detect_webhook_provider` receive an arbitrary
request body.  The result of `json.loads` on the body is modelled as an
`Option Json`: `none` when decoding raises `json.JSONDecodeError` (or
`UnicodeDecodeError`), `some v` for the decoded value.  Numbers are
modelled as `Int` (no claim involves fractional JSON numbers).
Operations that CPython would fault on — attribute access on a value of
the wrong type, iterating a non-iterable, pydantic field validation —
are modelled in an `Except PyErr` monad. -/

/-- A decoded JSON value. -/
inductive Json where
  | null
  | bool (b : Bool)
  | num (n : Int)
  | str (s : String)
  | arr (elems : List Json)
  | obj (fields : List (String × Json))

/-- Python truthiness of a decoded JSON value (`None`, `False`, `0`,
`""` and empty containers are falsy). -/
def Json.truthy : Json → Bool
  | Json.null => false
  | Json.bool b => b
  | Json.num n => n != 0
  | Json.str s => s ≠ ""
  | Json.arr xs => !xs.isEmpty
  | Json.obj kvs => !kvs.isEmpty

/-- Whether the value is a `dict` (`isinstance(data, dict)`). -/
def Json.isObj : Json → Bool
  | Json.obj _ => true
  | _ => false

/-- Lookup in a decoded JSON object.  `json.loads` keeps the last
occurrence of a duplicated key, hence the last-match fold. -/
def jsonLookup (kvs : List (String × Json)) (k : String) : Option Json :=
  kvs.foldl (fun acc kv => if kv.1 = k then some kv.2 else acc) none

/-- `k in data` on a decoded JSON object. -/
def hasKeyL (kvs : List (String × Json)) (k : String) : Bool :=
  kvs.any fun kv => kv.1 = k

/-- `k in data` on an arbitrary decoded value (callers below only use it
on values already known to be objects). -/
def Json.hasKey (j : Json) (k : String) : Bool :=
  match j with
  | Json.obj kvs => hasKeyL kvs k
  | _ => false

/-- `data[k]` on a value known to hold the key (callers guard with
`Json.hasKey`, so the missing-key `KeyError` path is unreachable and
defaults to `null`). -/
def Json.item (j : Json) (k : String) : Json :=
  match j with
  | Json.obj kvs => (jsonLookup kvs k).getD Json.null
  | _ => Json.null

/-- `d.get(k, dflt)`: raises `AttributeError` when `d` is not a dict. -/
def pyDictGet (j : Json) (k : String) (dflt : Json) : Except PyErr Json :=
  match j with
  | Json.obj kvs => Except.ok ((jsonLookup kvs k).getD dflt)
  | _ => Except.error PyErr.attributeError

/-- `v.replace(a, b)`: raises `AttributeError` when `v` is not a
string. -/
def pyStrReplace (j : Json) (a b : String) : Except PyErr String :=
  match j with
  | Json.str s => Except.ok (s.replace a b)
  | _ => Except.error PyErr.attributeError

/-- Iterating a decoded JSON value with `for`: a list yields its
elements, a string its one-character substrings, a dict its keys;
anything else raises `TypeError`. -/
def pyIter : Json → Except PyErr (List Json)
  | Json.arr xs => Except.ok xs
  | Json.str s => Except.ok (s.toList.map fun c => Json.str (String.mk [c]))
  | Json.obj kvs => Except.ok (kvs.map fun kv => Json.str kv.1)
  | _ => Except.error PyErr.typeError

/-- Pydantic v2 validation of a `str` field of `UnifiedEvent`: only an
actual string is accepted; any other decoded value raises
`ValidationError` at construction. -/
def pyStrField : Json → Except PyErr String
  | Json.str s => Except.ok s
  | _ => Except.error PyErr.validationError

/-- Python `str(v)` as used inside the f-strings building `event_id` and
the component `message`.  Scalars follow CPython exactly; the rendering
of nested containers is abbreviated to a length tag (no claim inspects
it). -/
def pyStr : Json → String
  | Json.null => "None"
  | Json.bool b => if b then "True" else "False"
  | Json.num n => toString n
  | Json.str s => s
  | Json.arr xs => "[#" ++ toString xs.length ++ "]"
  | Json.obj kvs => "\x7b#" ++ toString kvs.length ++ "\x7d"

/-- One iteration of the incident-update loop of
`AtlassianAdapter.parse_webhook` (lines 132–147): read and normalize the
update's `created_at`, fall back to `now` (`datetime.now()`) on an empty
or unparseable timestamp (`fromiso` returning `none` models the caught
`ValueError`), then construct the `UnifiedEvent`, validating the string
fields. -/
def incidentUpdateEvent (fromiso : String → Option Int) (now : Int)
    (sourceIdJ nameJ incIdJ upd : Json) : Except PyErr UnifiedEvent := do
  let createdRaw ← pyDictGet upd "created_at" Json.null
  let createdOr := if createdRaw.truthy then createdRaw else Json.str ""
  let ts ← pyStrReplace createdOr "Z" "+00:00"
  let timestamp := if ts = "" then now else (fromiso ts).getD now
  let statusJ ← pyDictGet upd "status" (Json.str "")
  let bodyJ ← pyDictGet upd "body" (Json.str "")
  let updIdJ ← pyDictGet upd "id" (Json.str "")
  let source_id ← pyStrField sourceIdJ
  let product_name ← pyStrField nameJ
  let status ← pyStrField statusJ
  let message ← pyStrField bodyJ
  Except.ok
    { source_id := source_id
      product_name := product_name
      status := status
      message := message
      timestamp := timestamp
      event_id := pyStr incIdJ ++ "_" ++ pyStr updIdJ }

/-- The incident-update loop of `parse_webhook`, in input order. -/
def parseIncidentEvents (fromiso : String → Option Int) (now : Int)
    (sourceIdJ nameJ incIdJ : Json) :
    List Json → Except PyErr (List UnifiedEvent)
  | [] => Except.ok []
  | upd :: rest => do
    let e ← incidentUpdateEvent fromiso now sourceIdJ nameJ incIdJ upd
    let es ← parseIncidentEvents fromiso now sourceIdJ nameJ incIdJ rest
    Except.ok (e :: es)

/-- The component-update branch of `parse_webhook` (lines 148–165):
normalize `created_at` as above, synthesize the `old -> new` message and
the `comp_`-namespaced `event_id`, validating the string fields. -/
def componentEvent (fromiso : String → Option Int) (now : Int)
    (sourceIdJ comp updc : Json) : Except PyErr UnifiedEvent := do
  let createdRaw ← pyDictGet updc "created_at" Json.null
  let createdOr := if createdRaw.truthy then createdRaw else Json.str ""
  let ts ← pyStrReplace createdOr "Z" "+00:00"
  let timestamp := if ts = "" then now else (fromiso ts).getD now
  let nameJ ← pyDictGet comp "name" (Json.str "Component")
  let newJ ← pyDictGet updc "new_status" (Json.str "")
  let oldJ ← pyDictGet updc "old_status" (Json.str "")
  let compIdJ ← pyDictGet comp "id" (Json.str "")
  let updIdJ ← pyDictGet updc "id" (Json.str "")
  let source_id ← pyStrField sourceIdJ
  let product_name ← pyStrField nameJ
  let status ← pyStrField newJ
  Except.ok
    { source_id := source_id
      product_name := product_name
      status := status
      message := "Status: " ++ pyStr oldJ ++ " -> " ++ pyStr newJ
      timestamp := timestamp
      event_id := "comp_" ++ pyStr compIdJ ++ "_" ++ pyStr updIdJ }

/-- `AtlassianAdapter.parse_webhook`.  `parsed` is the result of
`json.loads` on the body (`none` = `JSONDecodeError`, which the code
catches by returning `[]`).  `fromiso` models `datetime.fromisoformat`
(`none` = `ValueError`, caught by falling back to `now`).  The `headers`
argument of the Python function is unused by it and omitted.  A thrown
`PyErr` models an uncaught Python exception. -/
def parse_webhook (fromiso : String → Option Int) (now : Int)
    (parsed : Option Json) : Except PyErr (List UnifiedEvent) :=
  match parsed with
  | none => Except.ok []
  | some data => do
    let pageRaw ← pyDictGet data "page" Json.null
    let page := if pageRaw.truthy then pageRaw else Json.obj []
    let sourceIdJ ← pyDictGet page "id" (Json.str "atlassian")
    let incEvents ←
      if data.hasKey "incident" then do
        let inc := data.item "incident"
        let nameJ ← pyDictGet inc "name" (Json.str "Incident")
        let incIdJ ← pyDictGet inc "id" (Json.str "")
        let updsJ ← pyDictGet inc "incident_updates" (Json.arr [])
        let upds ← pyIter updsJ
        parseIncidentEvents fromiso now sourceIdJ nameJ incIdJ upds
      else Except.ok []
    let compEvents ←
      if data.hasKey "component_update" && data.hasKey "component" then do
        let comp := data.item "component"
        let updc := data.item "component_update"
        let ev ← componentEvent fromiso now sourceIdJ comp updc
        Except.ok [ev]
      else Except.ok []
    Except.ok (incEvents ++ compEvents)

/-- `webhook_server._detect_webhook_provider`: `none` when `json.loads`
fails or the decoded top level is not a dict; `"atlassian"` when the
dict has a `"page"` key together with an `"incident"` or
`"component_update"` key; `none` otherwise. -/
def _detect_webhook_provider (parsed : Option Json) : Option String :=
  match parsed with
  | none => none
  | some data =>
    match data with
    | Json.obj kvs =>
      if hasKeyL kvs "page" &&
          (hasKeyL kvs "incident" || hasKeyL kvs "component_update") then
        some "atlassian"
      else none
    | _ => none

/-! ## Concrete instances used by the counterexamples and witnesses -/

/-- A sample event (cf. the demo event in `pipeline/detector.py`). -/
def evA : UnifiedEvent :=
  { source_id := "OpenAI"
    product_name := "API"
    status := "investigating"
    message := "We are looking into it."
    timestamp := 100
    event_id := "evt-1" }

/-- A second sample event from the same source. -/
def evB : UnifiedEvent :=
  { evA with event_id := "evt-2", message := "Monitoring.", timestamp := 200 }

/-- An event whose timestamp is far older than any trim cutoff used
below. -/
def evOld : UnifiedEvent :=
  { evA with event_id := "evt-0", timestamp := 0 }

/-- An event whose timestamp lies inside the trim window of the
counterexamples below (cutoff `1000000 - 86400`). -/
def evC : UnifiedEvent :=
  { evA with event_id := "evt-3", timestamp := 999000 }

/-- A size function reporting the file as just over the 100 KiB trim
threshold, so that every non-empty append triggers a trim. -/
def sizeBig : List StoreLine → Nat := fun _ => MAX_FILE_BYTES + 1

/-- A size function reporting the file as empty, so that no append
triggers a trim. -/
def sizeSmall : List StoreLine → Nat := fun _ => 0

/-- A store holding one parseable record followed by 100 corrupt lines:
the input of the trim-fallback counterexample. -/
def store7 : List StoreLine :=
  StoreLine.record (dumpEvent evOld) :: List.replicate 100 (StoreLine.junk "corrupt")

/-- A store interleaving a corrupt line between two parseable records:
the input of the read-window counterexample. -/
def store4 : List StoreLine :=
  [StoreLine.record (dumpEvent evA), StoreLine.junk "corrupt",
   StoreLine.record (dumpEvent evB)]

/-- A sample incident update (cf. the sample payload in
`providers/atlassian.py`). -/
def updU : IncidentUpdate :=
  { id := "upd-1"
    body := "We are monitoring."
    status := "monitoring"
    created_at := "2025-11-03T14:32:00Z" }

/-- A second update that reuses the id of `updU`. -/
def updU2 : IncidentUpdate :=
  { updU with body := "Still monitoring." }

/-- A second update with a fresh id. -/
def updV : IncidentUpdate :=
  { updU with id := "upd-2", body := "Resolved.", status := "resolved" }

/-- A sample page. -/
def pg : PageInfo :=
  { id := "test-page", name := "Test Page", url := "https://stat.us" }

/-- An incident carrying two updates that share one update id. -/
def incDup : Incident :=
  { id := "inc-1"
    name := "API Degradation"
    impact := "major"
    status := "monitoring"
    incident_updates := [updU, updU2] }

/-- An incident carrying two updates with distinct ids. -/
def incOk : Incident :=
  { incDup with incident_updates := [updU, updV] }

/-- A summary whose single incident repeats an update id. -/
def summaryDup : StatusPageSummary :=
  { page := pg, incidents := [incDup] }

/-- A summary whose single incident has distinct update ids. -/
def summaryOk : StatusPageSummary :=
  { page := pg, incidents := [incOk] }

/-- An update whose `created_at` is not a parseable ISO instant. -/
def updBad : IncidentUpdate :=
  { updU with id := "upd-bad", created_at := "not-a-timestamp" }

/-- An incident whose only update has an unparseable `created_at`. -/
def incBad : Incident :=
  { incDup with incident_updates := [updBad] }

/-- A summary whose single incident has an unparseable update
timestamp. -/
def summaryBad : StatusPageSummary :=
  { page := pg, incidents := [incBad] }

end StatusPageLogs

namespace StatusPageLogs

/-! ## Helper lemmas -/

theorem length_filterMap_of_isSome {α β : Type} (f : α → Option β) :
    ∀ l : List α, (∀ x ∈ l, (f x).isSome = true) →
      (l.filterMap f).length = l.length := by
  intro l
  induction l with
  | nil => intro _; rfl
  | cons a t ih =>
    intro h
    have ha : (f a).isSome = true := h a (List.mem_cons_self a t)
    obtain ⟨b, hb⟩ := Option.isSome_iff_exists.mp ha
    have ht := ih fun x hx => h x (List.mem_cons_of_mem a hx)
    simp [List.filterMap_cons, hb, ht]

theorem pySliceLast_ne_nil {α : Type} (n : Nat) (xs : List α)
    (hxs : xs ≠ []) : pySliceLast n xs ≠ [] := by
  unfold pySliceLast
  by_cases hn : n = 0
  · simpa [hn]
  · simp only [hn, if_false]
    intro hdrop
    have hlen : xs.length ≤ xs.length - n := List.drop_eq_nil_iff.mp hdrop
    have hpos : 0 < xs.length := List.length_pos.mpr hxs
    have hnpos : 0 < n := Nat.pos_of_ne_zero hn
    have : xs.length - n < xs.length := Nat.sub_lt hpos hnpos
    omega

theorem pySliceLast_length_of_le {α : Type} (n : Nat) (xs : List α)
    (hn : 1 ≤ n) (hle : n ≤ xs.length) :
    (pySliceLast n xs).length = n := by
  unfold pySliceLast
  have hn0 : n ≠ 0 := Nat.one_le_iff_ne_zero.mp hn
  simp only [hn0, if_false, List.length_drop]
  omega

theorem string_append_left_cancel (p : String) {a b : String}
    (h : p ++ a = p ++ b) : a = b := by
  have h2 : (p ++ a).data = (p ++ b).data := congrArg String.data h
  simp [String.data_append] at h2
  exact String.ext h2

theorem filter_new_fst_of_fresh_nodup :
    ∀ (events : List UnifiedEvent) (seen : List (String × String)),
      (∀ e ∈ events, key e ∉ seen) → (events.map key).Nodup →
      (filter_new seen events).1 = events := by
  intro events
  induction events with
  | nil => intro seen _ _; rfl
  | cons e rest ih =>
    intro seen hfresh hnodup
    have he : key e ∉ seen := hfresh e (List.mem_cons_self e rest)
    have hrest : ∀ x ∈ rest, key x ∉ (key e :: seen) := by
      intro x hx
      simp only [List.mem_cons]
      push_neg
      refine ⟨?_, hfresh x (List.mem_cons_of_mem e hx)⟩
      intro hxe
      have : key e ∈ rest.map key := hxe ▸ List.mem_map_of_mem key hx
      exact (List.nodup_cons.mp (by simpa using hnodup)).1 this
    have htail := ih (key e :: seen) hrest
      (List.nodup_cons.mp (by simpa using hnodup)).2
    simp [filter_new, he, htail]

theorem filter_new_seen_subset :
    ∀ (events : List UnifiedEvent) (seen : List (String × String))
      {k : String × String}, k ∈ seen → k ∈ (filter_new seen events).2 := by
  intro events
  induction events with
  | nil => intro seen k hk; exact hk
  | cons e rest ih =>
    intro seen k hk
    by_cases he : key e ∈ seen
    · simpa [filter_new, he] using ih seen hk
    · simpa [filter_new, he] using ih (key e :: seen) (List.mem_cons_of_mem _ hk)

theorem filter_new_snd_mem_of_mem :
    ∀ (events : List UnifiedEvent) (seen : List (String × String)),
      ∀ e ∈ events, key e ∈ (filter_new seen events).2 := by
  intro events
  induction events with
  | nil => intro seen e he; cases he
  | cons a rest ih =>
    intro seen e he
    by_cases ha : key a ∈ seen
    · rcases List.mem_cons.mp he with rfl | hmem
      · simpa [filter_new, ha] using filter_new_seen_subset rest seen ha
      · simpa [filter_new, ha] using ih seen e hmem
    · rcases List.mem_cons.mp he with rfl | hmem
      · simpa [filter_new, ha] using
          filter_new_seen_subset rest (key e :: seen) (List.mem_cons_self _ _)
      · simpa [filter_new, ha] using ih (key a :: seen) e hmem

theorem filter_new_fst_nil_of_seen :
    ∀ (events : List UnifiedEvent) (seen : List (String × String)),
      (∀ e ∈ events, key e ∈ seen) → (filter_new seen events).1 = [] := by
  intro events
  induction events with
  | nil => intro seen _; rfl
  | cons e rest ih =>
    intro seen hall
    have he : key e ∈ seen := hall e (List.mem_cons_self e rest)
    have := ih seen fun x hx => hall x (List.mem_cons_of_mem e hx)
    simp [filter_new, he, this]

theorem filter_new_fst_key_not_seen :
    ∀ (events : List UnifiedEvent) (seen : List (String × String)),
      ∀ e ∈ (filter_new seen events).1, key e ∉ seen := by
  intro events
  induction events with
  | nil => intro seen e he; cases he
  | cons a rest ih =>
    intro seen e he
    by_cases ha : key a ∈ seen
    · rw [show (filter_new seen (a :: rest)).1 = (filter_new seen rest).1 by
        simp [filter_new, ha]] at he
      exact ih seen e he
    · rw [show (filter_new seen (a :: rest)).1
          = a :: (filter_new (key a :: seen) rest).1 by
        simp [filter_new, ha]] at he
      rcases List.mem_cons.mp he with rfl | hmem
      · exact ha
      · exact fun hk =>
          ih (key a :: seen) e hmem (List.mem_cons_of_mem _ hk)

theorem filter_new_fst_keys_nodup :
    ∀ (events : List UnifiedEvent) (seen : List (String × String)),
      ((filter_new seen events).1.map key).Nodup := by
  intro events
  induction events with
  | nil => intro seen; simp [filter_new]
  | cons a rest ih =>
    intro seen
    by_cases ha : key a ∈ seen
    · simpa [filter_new, ha] using ih seen
    · rw [show (filter_new seen (a :: rest)).1
          = a :: (filter_new (key a :: seen) rest).1 by
        simp [filter_new, ha]]
      rw [List.map_cons, List.nodup_cons]
      refine ⟨?_, ih (key a :: seen)⟩
      intro hk
      obtain ⟨e, he, hke⟩ := List.mem_map.mp hk
      exact filter_new_fst_key_not_seen rest (key a :: seen) e he
        (hke ▸ List.mem_cons_self _ _)

theorem filter_new_fst_filter_key :
    ∀ (events : List UnifiedEvent) (seen : List (String × String))
      (k : String × String),
      (filter_new seen events).1.filter (fun e => decide (key e = k)) =
        if k ∈ seen then []
        else (events.find? fun e => decide (key e = k)).toList := by
  intro events
  induction events with
  | nil =>
    intro seen k
    simp [filter_new]
  | cons a rest ih =>
    intro seen k
    by_cases ha : key a ∈ seen
    · rw [show (filter_new seen (a :: rest)).1 = (filter_new seen rest).1 by
        simp [filter_new, ha]]
      rw [ih seen k]
      by_cases hk : k ∈ seen
      · simp [hk]
      · have hak : ¬ key a = k := fun h => hk (h ▸ ha)
        simp [hk, List.find?_cons, hak]
    · rw [show (filter_new seen (a :: rest)).1
          = a :: (filter_new (key a :: seen) rest).1 by
        simp [filter_new, ha]]
      by_cases hak : key a = k
      · subst hak
        have htail := ih (key a :: seen) (key a)
        rw [if_pos (List.mem_cons_self _ _)] at htail
        rw [List.find?_cons_of_pos _ (by simp)]
        simp [List.filter_cons, htail, ha]
      · have hmem : (k ∈ key a :: seen) ↔ (k ∈ seen) := by
          constructor
          · intro h
            rcases List.mem_cons.mp h with h1 | h2
            · exact absurd h1.symm hak
            · exact h2
          · exact List.mem_cons_of_mem _
        rw [List.filter_cons, if_neg (by simp [hak])]
        rw [ih (key a :: seen) k]
        rw [List.find?_cons_of_neg _ (by simp [hak])]
        by_cases hk : k ∈ seen
        · rw [if_pos (hmem.mpr hk), if_pos hk]
        · rw [if_neg (fun h => hk (hmem.mp h)), if_neg hk]

/-! ## Claim C2 -/

/-- C2, counterexample: a batch that repeats the same event is not
returned in full by the first `filter_new` call on a detector with no
prior overlap — the in-batch duplicate is already dropped, so the claim
as stated fails on this input. -/
theorem filter_new_duplicate_batch_counterexample :
    (filter_new [] [evA, evA]).1 = [evA] ∧
    (filter_new [] [evA, evA]).1 ≠ [evA, evA] := by
  decide

/-- C2, amended: for a batch whose `(source_id, event_id)` keys are
pairwise distinct and none of which the detector has seen, the first
`filter_new` call returns the full batch and a second call with the
identical batch returns the empty list, for any batch size and any mix
of source ids. -/
theorem filter_new_twice (seen : List (String × String))
    (events : List UnifiedEvent)
    (hfresh : ∀ e ∈ events, key e ∉ seen)
    (hnodup : (events.map key).Nodup) :
    (filter_new seen events).1 = events ∧
    (filter_new (filter_new seen events).2 events).1 = [] := by
  refine ⟨filter_new_fst_of_fresh_nodup events seen hfresh hnodup, ?_⟩
  exact filter_new_fst_nil_of_seen events _
    fun e he => filter_new_snd_mem_of_mem events seen e he

/-- C2, witness: a two-event batch from one source against a fresh
detector is returned in full once and suppressed on the second call. -/
theorem filter_new_twice_witness :
    (filter_new [] [evA, evB]).1 = [evA, evB] ∧
    (filter_new (filter_new [] [evA, evB]).2 [evA, evB]).1 = [] :=
  filter_new_twice [] [evA, evB] (by decide) (by decide)

/-! ## Claim C10 -/

/-- C10: within one `filter_new` call, for every key `k`, the returned
events with key `k` are exactly the first input occurrence with that key
(and none when the key was already seen), so later in-batch duplicates
are dropped and the returned list never holds two events with the same
`(source_id, event_id)` pair. -/
theorem filter_new_first_occurrence (seen : List (String × String))
    (events : List UnifiedEvent) :
    (∀ k : String × String,
      (filter_new seen events).1.filter (fun e => decide (key e = k)) =
        if k ∈ seen then []
        else (events.find? fun e => decide (key e = k)).toList) ∧
    ((filter_new seen events).1.map key).Nodup :=
  ⟨fun k => filter_new_fst_filter_key events seen k,
   filter_new_fst_keys_nodup events seen⟩

/-! ## Claim C5 -/

/-- C5: evaluating the code at the failing input.  The Python slice
`lines[-limit:]` degenerates to the whole list at `limit = 0`, so
`read_last_events(0)` on a two-record store returns both records
(newest first) instead of the empty list the docstring and the spec
require. -/
theorem read_last_limit_zero_bug :
    read_last_events
        (some [StoreLine.record (dumpEvent evA),
               StoreLine.record (dumpEvent evB)]) 0 =
      [ParsedLine.record (dumpEvent evB), ParsedLine.record (dumpEvent evA)] := by
  rfl

/-! ## Claim C4 -/

/-- C4, counterexample: a store holding two parseable records with one
corrupt line between them, read with `limit = 2`, returns a single
record — the corrupt line occupies a slot of the `lines[-limit:]`
window, so unparseable lines do count against `limit`, contradicting
the claim that the result would have exactly `limit` records. -/
theorem read_last_unparseable_counterexample :
    read_last_events (some store4) 2 = [ParsedLine.record (dumpEvent evB)] ∧
    (store4.filterMap _parse_line).length = 2 := by
  decide

/-- C4, amended: blank lines are dropped before the window is taken and
never count against `limit`; non-blank lines that fail to parse are
skipped from the output but do occupy window slots, so the result has
exactly `limit` records precisely when (at least for stores where) the
last `limit` non-blank lines all parse. -/
theorem read_last_window_semantics :
    (∀ (s t : List StoreLine) (limit : Nat),
      read_last_events (some (s ++ StoreLine.blank :: t)) limit =
        read_last_events (some (s ++ t)) limit) ∧
    (∀ (store : List StoreLine) (limit : Nat),
      1 ≤ limit →
      limit ≤ (store.filter nonblank).length →
      (∀ l ∈ pySliceLast limit (store.filter nonblank),
        (_parse_line l).isSome = true) →
      (read_last_events (some store) limit).length = limit) := by
  constructor
  · intro s t limit
    have hf : (s ++ StoreLine.blank :: t).filter nonblank
        = (s ++ t).filter nonblank := by
      simp [List.filter_append, List.filter_cons, nonblank]
    simp only [read_last_events, hf]
  · intro store limit h1 hle hparse
    simp only [read_last_events]
    rw [length_filterMap_of_isSome _ _
      fun x hx => hparse x (List.mem_reverse.mp hx)]
    rw [List.length_reverse]
    exact pySliceLast_length_of_le limit _ h1 hle

/-- C4, witness: a blank line between two records does not change the
result at `limit = 1`, and a two-record store read with `limit = 1`
yields exactly one record. -/
theorem read_last_window_semantics_witness :
    read_last_events
        (some ([StoreLine.record (dumpEvent evA)] ++ StoreLine.blank ::
          [StoreLine.record (dumpEvent evB)])) 1 =
      read_last_events
        (some ([StoreLine.record (dumpEvent evA)] ++
          [StoreLine.record (dumpEvent evB)])) 1 ∧
    (read_last_events
        (some [StoreLine.record (dumpEvent evA),
               StoreLine.record (dumpEvent evB)]) 1).length = 1 :=
  ⟨read_last_window_semantics.1 [StoreLine.record (dumpEvent evA)]
      [StoreLine.record (dumpEvent evB)] 1,
   read_last_window_semantics.2
      [StoreLine.record (dumpEvent evA), StoreLine.record (dumpEvent evB)] 1
      (by decide) (by decide) (by decide)⟩

/-! ## Claim C1 -/

theorem filterMap_parse_map_dump :
    ∀ l : List UnifiedEvent,
      (l.map _event_to_line).filterMap _parse_line =
        l.map fun e => ParsedLine.record (dumpEvent e) := by
  intro l
  induction l with
  | nil => rfl
  | cons a t ih =>
    simp only [List.map_cons, List.filterMap_cons]
    rw [show _parse_line (_event_to_line a)
        = some (ParsedLine.record (dumpEvent a)) from rfl]
    rw [ih]

/-- C1: appending `N` well-formed events to an empty or absent store and
reading back with `limit ≥ N`, while the file size stays at or below the
trim threshold, raises nothing and returns exactly those `N` events'
records, newest first. -/
theorem round_trip_append_read (sizeOf : List StoreLine → Nat) (now : Int)
    (store : Option (List StoreLine)) (events : List UnifiedEvent)
    (limit : Nat)
    (hstore : store.getD [] = [])
    (hlim : events.length ≤ limit)
    (hsize : sizeOf (events.map _event_to_line) ≤ MAX_FILE_BYTES) :
    (append_events sizeOf now store events).err = none ∧
    read_last_events (append_events sizeOf now store events).store limit =
      (events.map fun e => ParsedLine.record (dumpEvent e)).reverse := by
  cases events with
  | nil =>
    rw [show append_events sizeOf now store []
        = { store := store, err := none } by simp [append_events]]
    refine ⟨rfl, ?_⟩
    cases store with
    | none => simp [read_last_events]
    | some file =>
      have hfile : file = [] := by simpa using hstore
      subst hfile
      simp [read_last_events, pySliceLast]
  | cons e rest =>
    have happ : append_events sizeOf now store (e :: rest) =
        { store := some ((e :: rest).map _event_to_line), err := none } := by
      unfold append_events
      rw [show ((e :: rest : List UnifiedEvent).isEmpty) = false from rfl]
      simp only [Bool.false_eq_true, if_false, hstore, List.nil_append]
      rw [if_pos hsize]
    rw [happ]
    refine ⟨rfl, ?_⟩
    simp only [read_last_events]
    have hfil : ((e :: rest).map _event_to_line).filter nonblank
        = (e :: rest).map _event_to_line :=
      List.filter_eq_self.mpr (by
        intro a ha
        obtain ⟨x, _, rfl⟩ := List.mem_map.mp ha
        rfl)
    rw [hfil]
    have hlim0 : limit ≠ 0 := by
      intro h
      subst h
      exact absurd hlim (by simp)
    unfold pySliceLast
    rw [if_neg hlim0, List.length_map,
      Nat.sub_eq_zero_of_le hlim, List.drop_zero]
    rw [← List.map_reverse, filterMap_parse_map_dump, List.map_reverse]

/-- C1, witness: appending two events to an absent store and reading
back with `limit = 2` raises nothing and returns both records, newest
first. -/
theorem round_trip_append_read_witness :
    (append_events sizeSmall 0 none [evA, evB]).err = none ∧
    read_last_events (append_events sizeSmall 0 none [evA, evB]).store 2 =
      ([evA, evB].map fun e => ParsedLine.record (dumpEvent e)).reverse :=
  round_trip_append_read sizeSmall 0 none [evA, evB] 2 rfl
    (by decide) (by decide)

/-! ## Claim C6 -/

theorem trimFilter_eq_filter_of_safe (cutoff : Int) :
    ∀ ls : List StoreLine, (∀ l ∈ ls, lineSafe l = true) →
      trimFilter cutoff ls = Except.ok (ls.filter (keepLine cutoff)) := by
  intro ls
  induction ls with
  | nil => intro _; rfl
  | cons line rest ih =>
    intro hsafe
    have hrest := ih fun l hl => hsafe l (List.mem_cons_of_mem _ hl)
    have hline := hsafe line (List.mem_cons_self _ _)
    cases hp : _parse_line line with
    | none =>
      rw [show trimFilter cutoff (line :: rest) = trimFilter cutoff rest by
        simp [trimFilter, hp]]
      rw [hrest, List.filter_cons,
        if_neg (by simp [keepLine, hp])]
    | some d =>
      cases ht : _parse_ts d with
      | error e =>
        simp [lineSafe, hp, ht] at hline
      | ok ts =>
        have hstep : trimFilter cutoff (line :: rest) =
            Except.ok (if keepLine cutoff line
              then line :: rest.filter (keepLine cutoff)
              else rest.filter (keepLine cutoff)) := by
          simp only [trimFilter, hp, ht, hrest]
          cases ts with
          | none => simp [keepLine, hp, ht]
          | some t => simp [keepLine, hp, ht]
        rw [hstep, List.filter_cons]


/-- C6, counterexample: with an in-window record present and the size
threshold exceeded, a line holding the truthy non-dict JSON value `7`
is not dropped silently — `d.get("timestamp")` raises an uncaught
`AttributeError`, the append call fails, and the store keeps all
appended lines instead of exactly the in-window records. -/
theorem trim_attribute_error_counterexample :
    (append_events sizeBig 1000000
        (some [StoreLine.value "7", StoreLine.record (dumpEvent evC)])
        [evB]).err = some PyErr.attributeError ∧
    (append_events sizeBig 1000000
        (some [StoreLine.value "7", StoreLine.record (dumpEvent evC)])
        [evB]).store =
      some [StoreLine.value "7", StoreLine.record (dumpEvent evC),
            _event_to_line evB] :=
  ⟨rfl, rfl⟩

/-- C6, amended: when a non-empty append pushes the file past the size
threshold, every line of the appended file is one the trim loop
processes without raising (skipped by parsing, or with a timestamp
entry that is absent, falsy, or a string), and at least one line parses
with a timestamp at or after `now` minus 24 hours, the trim raises
nothing and rewrites the store to exactly the lines with an in-window
timestamp, one per line, in their original relative order — lines whose
record or timestamp fails to parse are dropped silently.  (A line
parsing to a truthy non-dict value, or a truthy non-string timestamp
entry, instead crashes the trim with `AttributeError`, as the
counterexample shows.) -/
theorem trim_keeps_window_safe (sizeOf : List StoreLine → Nat) (now : Int)
    (store : Option (List StoreLine)) (events : List UnifiedEvent)
    (hne : events ≠ [])
    (hbig : MAX_FILE_BYTES <
      sizeOf (store.getD [] ++ events.map _event_to_line))
    (hsafe : ∀ l ∈ store.getD [] ++ events.map _event_to_line,
      lineSafe l = true)
    (hex : ∃ l ∈ store.getD [] ++ events.map _event_to_line,
      keepLine (now - DAY_SECONDS) l = true) :
    (append_events sizeOf now store events).err = none ∧
    (append_events sizeOf now store events).store =
      some ((store.getD [] ++ events.map _event_to_line).filter
        (keepLine (now - DAY_SECONDS))) := by
  have happ : append_events sizeOf now store events =
      { store := some ((store.getD [] ++ events.map _event_to_line).filter
          (keepLine (now - DAY_SECONDS)))
        err := none } := by
    unfold append_events
    rw [show events.isEmpty = false from List.isEmpty_eq_false.mpr hne]
    simp only [Bool.false_eq_true, if_false]
    rw [if_neg (Nat.not_le.mpr hbig)]
    rw [trimFilter_eq_filter_of_safe (now - DAY_SECONDS) _ hsafe]
    obtain ⟨l, hl, hp⟩ := hex
    have hkept : (store.getD [] ++ events.map _event_to_line).filter
        (keepLine (now - DAY_SECONDS)) ≠ [] :=
      List.ne_nil_of_mem (List.mem_filter.mpr ⟨hl, hp⟩)
    simp only [List.isEmpty_eq_false.mpr hkept, Bool.false_eq_true, if_false]
  rw [happ]
  exact ⟨rfl, rfl⟩

/-- C6, witness: a store holding one corrupt (unparseable) line, to
which one recent event is appended past the threshold, is trimmed
without raising to exactly the in-window record line. -/
theorem trim_keeps_window_safe_witness :
    (append_events sizeBig 86500
        (some [StoreLine.junk "corrupt"]) [evB]).err = none ∧
    (append_events sizeBig 86500
        (some [StoreLine.junk "corrupt"]) [evB]).store =
      some (((some [StoreLine.junk "corrupt"]).getD [] ++
        [evB].map _event_to_line).filter
          (keepLine (86500 - DAY_SECONDS))) :=
  trim_keeps_window_safe sizeBig 86500 (some [StoreLine.junk "corrupt"])
    [evB] (by decide) (by decide) (by decide) (by decide)

/-! ## Claim C7 -/

/-- C7, counterexample: a store holding one old record followed by 100
corrupt lines, trimmed after appending one old event, loses the
pre-existing record even though far fewer than 100 records existed —
the fallback keeps the last 100 non-blank *lines*, not records, so the
post-trim store does not contain the last 100 records by file order. -/
theorem trim_fallback_counterexample :
    StoreLine.record (dumpEvent evOld) ∈ store7 ∧
    StoreLine.record (dumpEvent evOld) ∉
      ((append_events sizeBig 1000000 (some store7) [evA]).store.getD []) := by
  decide

/-- C7, amended: when a trim runs over a file whose every line the trim
loop processes without raising and none parses with an in-window
timestamp, the append raises nothing and the store afterwards contains
exactly the last 100 non-blank lines by file order (or all of them if
fewer existed) — possibly including unparseable lines and dropping
earlier records — and is never left empty.  (A line parsing to a truthy
non-dict value, or a truthy non-string timestamp entry, crashes the
trim with `AttributeError` before the fallback runs, leaving the store
untrimmed.) -/
theorem trim_fallback_safe (sizeOf : List StoreLine → Nat)
    (now : Int) (store : Option (List StoreLine))
    (events : List UnifiedEvent)
    (hne : events ≠ [])
    (hbig : MAX_FILE_BYTES <
      sizeOf (store.getD [] ++ events.map _event_to_line))
    (hsafe : ∀ l ∈ store.getD [] ++ events.map _event_to_line,
      lineSafe l = true)
    (hnone : ∀ l ∈ store.getD [] ++ events.map _event_to_line,
      keepLine (now - DAY_SECONDS) l = false) :
    (append_events sizeOf now store events).err = none ∧
    (append_events sizeOf now store events).store =
      some (pySliceLast KEEP_LAST_N_WHEN_EMPTY
        ((store.getD [] ++ events.map _event_to_line).filter nonblank)) ∧
    pySliceLast KEEP_LAST_N_WHEN_EMPTY
      ((store.getD [] ++ events.map _event_to_line).filter nonblank)
      ≠ [] := by
  have hkept : (store.getD [] ++ events.map _event_to_line).filter
      (keepLine (now - DAY_SECONDS)) = [] :=
    List.filter_eq_nil_iff.mpr fun a ha => by simp [hnone a ha]
  have happ : append_events sizeOf now store events =
      { store := some (pySliceLast KEEP_LAST_N_WHEN_EMPTY
          ((store.getD [] ++ events.map _event_to_line).filter nonblank))
        err := none } := by
    unfold append_events
    rw [show events.isEmpty = false from List.isEmpty_eq_false.mpr hne]
    simp only [Bool.false_eq_true, if_false]
    rw [if_neg (Nat.not_le.mpr hbig)]
    rw [trimFilter_eq_filter_of_safe (now - DAY_SECONDS) _ hsafe]
    rw [hkept]
    simp
  rw [happ]
  refine ⟨rfl, rfl, ?_⟩
  apply pySliceLast_ne_nil
  cases events with
  | nil => exact absurd rfl hne
  | cons e rest =>
    apply List.ne_nil_of_mem (a := _event_to_line e)
    refine List.mem_filter.mpr ⟨?_, rfl⟩
    exact List.mem_append_right _ (List.mem_map_of_mem _
      (List.mem_cons_self e rest))

/-- C7, witness: the trim-fallback store of the counterexample input is
exactly the last 100 non-blank lines of the appended file, with nothing
raised and a non-empty result. -/
theorem trim_fallback_safe_witness :
    (append_events sizeBig 1000000 (some store7) [evA]).err = none ∧
    (append_events sizeBig 1000000 (some store7) [evA]).store =
      some (pySliceLast KEEP_LAST_N_WHEN_EMPTY
        (((some store7).getD [] ++ [evA].map _event_to_line).filter
          nonblank)) ∧
    pySliceLast KEEP_LAST_N_WHEN_EMPTY
      (((some store7).getD [] ++ [evA].map _event_to_line).filter
        nonblank) ≠ [] :=
  trim_fallback_safe sizeBig 1000000 (some store7) [evA]
    (by decide) (by decide) (by decide) (by decide)

/-! ## Claim C8 -/

theorem normUpdates_ok (fromiso : String → Option Int) (sid : String)
    (inc : Incident) :
    ∀ upds : List IncidentUpdate,
      (∀ u ∈ upds,
        (fromiso (u.created_at.replace "Z" "+00:00")).isSome = true) →
      normUpdates fromiso sid inc upds =
        Except.ok (upds.map fun u =>
          { source_id := sid
            product_name := inc.name
            status := u.status
            message := u.body
            timestamp := (fromiso (u.created_at.replace "Z" "+00:00")).getD 0
            event_id := inc.id ++ "_" ++ u.id }) := by
  intro upds
  induction upds with
  | nil => intro _; rfl
  | cons u rest ih =>
    intro h
    obtain ⟨t, ht⟩ :=
      Option.isSome_iff_exists.mp (h u (List.mem_cons_self _ _))
    have hrest := ih fun x hx => h x (List.mem_cons_of_mem _ hx)
    simp only [normUpdates, ht, List.map_cons, Option.getD_some]
    rw [hrest]

theorem normIncidents_ok (fromiso : String → Option Int) (sid : String) :
    ∀ incs : List Incident,
      (∀ inc ∈ incs, ∀ u ∈ inc.incident_updates,
        (fromiso (u.created_at.replace "Z" "+00:00")).isSome = true) →
      normIncidents fromiso sid incs =
        Except.ok (incs.flatMap fun inc =>
          inc.incident_updates.map fun u =>
            { source_id := sid
              product_name := inc.name
              status := u.status
              message := u.body
              timestamp :=
                (fromiso (u.created_at.replace "Z" "+00:00")).getD 0
              event_id := inc.id ++ "_" ++ u.id }) := by
  intro incs
  induction incs with
  | nil => intro _; rfl
  | cons inc rest ih =>
    intro h
    have h1 := normUpdates_ok fromiso sid inc inc.incident_updates
      (h inc (List.mem_cons_self _ _))
    have hrest := ih fun i hi => h i (List.mem_cons_of_mem _ hi)
    simp only [normIncidents, List.flatMap_cons]
    rw [h1, hrest]

/-- C8, counterexample: (i) a summary whose single incident carries two
updates with the same update id normalizes to two events sharing one
`event_id`, so the `k` events of a `k`-update incident are not always
pairwise distinct in `event_id`; (ii) a summary whose update has an
unparseable `created_at` makes normalization raise `ValueError` — the
unguarded `datetime.fromisoformat` — instead of emitting an event per
update. -/
theorem normalize_duplicate_update_counterexample :
    (_normalize_to_events (fun _ => some 0) summaryDup "src").map
        (List.map fun e => e.event_id) =
      Except.ok ["inc-1_upd-1", "inc-1_upd-1"] ∧
    ¬ (["inc-1_upd-1", "inc-1_upd-1"] : List String).Nodup ∧
    _normalize_to_events (fun _ => none) summaryBad "src" =
      Except.error PyErr.valueError :=
  ⟨rfl, by decide, rfl⟩

/-- C8, amended: for every summary all of whose updates' `created_at`
values parse, normalization raises nothing and emits one event per
incident update in the summary's incident/update order, with `event_id`
the incident id, an underscore and the update id, timestamp parsed from
the update's `created_at`, and status/message taken from the update;
for a summary with one incident having `k` updates, this yields exactly
`k` events, pairwise distinct in `event_id` when the `k` update ids are
pairwise distinct.  (An unparseable `created_at` raises `ValueError`
instead, and duplicate update ids yield duplicate `event_id`s, as the
counterexample shows.) -/
theorem normalize_events_spec (fromiso : String → Option Int)
    (sid : String) (summary : StatusPageSummary)
    (hparse : ∀ inc ∈ summary.incidents, ∀ u ∈ inc.incident_updates,
      (fromiso (u.created_at.replace "Z" "+00:00")).isSome = true) :
    _normalize_to_events fromiso summary sid =
      Except.ok (normalizedEvents fromiso summary sid) ∧
    (∀ inc, summary.incidents = [inc] →
      (normalizedEvents fromiso summary sid).length =
        inc.incident_updates.length ∧
      ((inc.incident_updates.map IncidentUpdate.id).Nodup →
        ((normalizedEvents fromiso summary sid).map
          UnifiedEvent.event_id).Nodup)) := by
  have h1 : _normalize_to_events fromiso summary sid =
      Except.ok (normalizedEvents fromiso summary sid) := by
    unfold _normalize_to_events normalizedEvents
    exact normIncidents_ok fromiso sid summary.incidents hparse
  refine ⟨h1, ?_⟩
  intro inc hinc
  have hne : normalizedEvents fromiso summary sid =
      inc.incident_updates.map fun u =>
        { source_id := sid
          product_name := inc.name
          status := u.status
          message := u.body
          timestamp := (fromiso (u.created_at.replace "Z" "+00:00")).getD 0
          event_id := inc.id ++ "_" ++ u.id } := by
    unfold normalizedEvents
    rw [hinc]
    simp
  constructor
  · rw [hne, List.length_map]
  · intro hids
    rw [hne, List.map_map]
    rw [show (UnifiedEvent.event_id ∘ fun u : IncidentUpdate =>
        ({ source_id := sid
           product_name := inc.name
           status := u.status
           message := u.body
           timestamp := (fromiso (u.created_at.replace "Z" "+00:00")).getD 0
           event_id := inc.id ++ "_" ++ u.id } : UnifiedEvent))
      = (fun s => inc.id ++ "_" ++ s) ∘ IncidentUpdate.id from rfl]
    rw [← List.map_map]
    exact List.Nodup.map
      (fun a b hab => string_append_left_cancel (inc.id ++ "_") hab) hids

/-- C8, witness: the two-update incident with distinct update ids
normalizes without raising to exactly its two events, with distinct
`event_id`s. -/
theorem normalize_events_spec_witness :
    _normalize_to_events (fun _ => some 0) summaryOk "src" =
      Except.ok (normalizedEvents (fun _ => some 0) summaryOk "src") ∧
    (normalizedEvents (fun _ => some 0) summaryOk "src").length =
      incOk.incident_updates.length ∧
    ((normalizedEvents (fun _ => some 0) summaryOk "src").map
      UnifiedEvent.event_id).Nodup :=
  ⟨(normalize_events_spec (fun _ => some 0) "src" summaryOk (by decide)).1,
   ((normalize_events_spec (fun _ => some 0) "src" summaryOk
      (by decide)).2 incOk rfl).1,
   ((normalize_events_spec (fun _ => some 0) "src" summaryOk
      (by decide)).2 incOk rfl).2 (by decide)⟩

/-! ## Claim C9 -/

/-- C9: provider detection returns no match on a body that fails to
decode or whose top level is not a keyed structure; it selects
`"atlassian"` for a top-level object holding a `"page"` key together
with an `"incident"` or `"component_update"` key; and it selects no
provider for every other keyed shape — the function is total, so no
input raises. -/
theorem detect_webhook_provider_cases (parsed : Option Json) :
    (parsed = none → _detect_webhook_provider parsed = none) ∧
    (∀ d, parsed = some d → d.isObj = false →
      _detect_webhook_provider parsed = none) ∧
    (∀ kvs, parsed = some (Json.obj kvs) →
      (hasKeyL kvs "page" &&
        (hasKeyL kvs "incident" || hasKeyL kvs "component_update")) = true →
      _detect_webhook_provider parsed = some "atlassian") ∧
    (∀ kvs, parsed = some (Json.obj kvs) →
      (hasKeyL kvs "page" &&
        (hasKeyL kvs "incident" || hasKeyL kvs "component_update")) = false →
      _detect_webhook_provider parsed = none) := by
  refine ⟨?_, ?_, ?_, ?_⟩
  · intro h
    subst h
    rfl
  · intro d h hobj
    subst h
    cases d <;> simp_all [_detect_webhook_provider, Json.isObj]
  · intro kvs h hcond
    subst h
    simp [_detect_webhook_provider, hcond]
  · intro kvs h hcond
    subst h
    simp [_detect_webhook_provider, hcond]

/-- C9, witness: a body decoding to an object with `"page"` and
`"incident"` keys selects the reference provider. -/
theorem detect_webhook_provider_cases_witness :
    _detect_webhook_provider
        (some (Json.obj [("page", Json.null), ("incident", Json.null)])) =
      some "atlassian" :=
  (detect_webhook_provider_cases
      (some (Json.obj [("page", Json.null), ("incident", Json.null)]))).2.2.1
    [("page", Json.null), ("incident", Json.null)] rfl (by decide)

/-! ## Claim C3 -/

theorem except_ok_bind {ε α β : Type} (a : α) (f : α → Except ε β) :
    (Except.ok a >>= f) = f a := rfl

theorem pyDictGet_ok_of_guard (pr : Json)
    (h : pr.truthy = true → pr.isObj = true) :
    ∃ v, pyDictGet (if pr.truthy then pr else Json.obj [])
      "id" (Json.str "atlassian") = Except.ok v := by
  by_cases ht : pr.truthy = true
  · rw [if_pos ht]
    have hobj := h ht
    cases pr <;> simp_all [Json.isObj, pyDictGet]
  · rw [if_neg ht]
    exact ⟨_, rfl⟩

/-- C3, counterexample: the body `"[]"` is well-formed JSON whose shape
is not a recognized payload, yet `parse_webhook` faults on it — the
unconditional `data.get("page")` is an attribute error on a non-dict
top level — instead of returning the empty event list. -/
theorem parse_webhook_nonobject_counterexample :
    parse_webhook (fun _ => none) 0 (some (Json.arr [])) =
      Except.error PyErr.attributeError := rfl

/-- C3, amended: a body that fails to decode as JSON yields the empty
event list without raising; a body decoding to a top-level object that
lacks an `"incident"` key, lacks the `"component_update"`/`"component"`
key pair, and whose `"page"` value (when truthy) is itself an object,
also yields the empty event list without raising.  (Other unrecognized
bodies — a non-object top level, or a mistyped `"page"` value — fault
instead, as the counterexample shows.) -/
theorem parse_webhook_unrecognized_empty (fromiso : String → Option Int)
    (now : Int) (parsed : Option Json) :
    (parsed = none → parse_webhook fromiso now parsed = Except.ok []) ∧
    (∀ kvs, parsed = some (Json.obj kvs) →
      (((jsonLookup kvs "page").getD Json.null).truthy = true →
        ((jsonLookup kvs "page").getD Json.null).isObj = true) →
      hasKeyL kvs "incident" = false →
      (hasKeyL kvs "component_update" && hasKeyL kvs "component") = false →
      parse_webhook fromiso now parsed = Except.ok []) := by
  constructor
  · intro h
    subst h
    rfl
  · intro kvs h hpage hinc hcomp
    subst h
    obtain ⟨v, hv⟩ :=
      pyDictGet_ok_of_guard ((jsonLookup kvs "page").getD Json.null) hpage
    have h1 : pyDictGet (Json.obj kvs) "page" Json.null
        = Except.ok ((jsonLookup kvs "page").getD Json.null) := rfl
    have h2 : (Json.obj kvs).hasKey "incident" = false := hinc
    have h3 : ((Json.obj kvs).hasKey "component_update" &&
        (Json.obj kvs).hasKey "component") = false := hcomp
    simp only [parse_webhook, h1, except_ok_bind, hv, h2, h3,
      Bool.false_eq_true, if_false, List.append_nil]

/-- C3, witness: a decoded top-level object with none of the recognized
keys produces the empty event list. -/
theorem parse_webhook_unrecognized_empty_witness :
    parse_webhook (fun _ => none) 0
        (some (Json.obj [("zen", Json.str "keep calm")])) =
      Except.ok [] :=
  (parse_webhook_unrecognized_empty (fun _ => none) 0
      (some (Json.obj [("zen", Json.str "keep calm")]))).2
    [("zen", Json.str "keep calm")] rfl (by decide) (by decide) (by decide)

end StatusPageLogs
